import Mathlib

set_option autoImplicit false

/-!
Verification development for the mainflux things service and its in-memory
channel repository mock (service.go, mocks/channels.go).

Go strings are modelled as lists of characters (`Str`); the identifiers and
keys manipulated by the code are ASCII, where byte-wise and character-wise
lexicographic comparison coincide.  Go maps are modelled as association
lists with unique keys (`mapPut` replaces in place, `mapDel` removes the
key); iteration order of a Go map is unspecified, the list order stands in
for one such order.  Fallible operations return `Option Err` (the Go
`error` result, `none` = nil) or `Except Err`.
-/

abbrev Str := List Char

/-- Lexicographic strict order on character lists: the model of Go's
byte-wise `<` on (ASCII) strings. -/
def lexLt : Str → Str → Bool
  | [], [] => false
  | [], _ :: _ => true
  | _ :: _, [] => false
  | a :: as, b :: bs =>
    if a < b then true else if b < a then false else lexLt as bs

/-- Character for a decimal digit, as produced by Go's `%d` formatting. -/
def digitChar (d : Nat) : Char := Char.ofNat (48 + d)

/-- Big-endian fixed-width decimal digits of `n` (meaningful for `n < 10^w`):
the digit string produced by zero-padded formatting. -/
def padDigits : Nat → Nat → List Nat
  | 0, _ => []
  | w + 1, n => (n / 10 ^ w) :: padDigits w (n % 10 ^ w)

/-- Little-endian decimal digits of `n`, with explicit fuel. -/
def revDigits : Nat → Nat → List Nat
  | 0, _ => []
  | f + 1, n => if n = 0 then [] else n % 10 :: revDigits f (n / 10)

/-- Number of decimal digits of `n` (for `n > 0`). -/
def digLen (n : Nat) : Nat := (revDigits (n + 1) n).length

/-- Model of Go's `fmt.Sprintf("%012d", n)`: `n` in decimal, left padded
with zeros to a minimum width of 12 (wider numbers are printed in full). -/
def fmt012 (n : Nat) : Str :=
  if n < 10 ^ 12 then (padDigits 12 n).map digitChar
  else (padDigits (digLen n) n).map digitChar

/-- Modelled from the spec: mocks/commons.go is not part of the sources; per
section 4.4 the identity scheme is a fixed prefix (`startID`) followed by the
zero-padded creation counter. -/
def startID : Str := ['1']

/-- Modelled from the spec: the identifier produced for the n-th call of the
mock identity provider (section 4.4: fixed-width, zero-padded, monotonically
increasing decimal strings). -/
def mkID (n : Nat) : Str := startID ++ fmt012 n

/-- Decimal value of the digit part of an identifier (the characters after
the `startID` prefix); the creation counter an identifier encodes. -/
def idNum (s : Str) : Nat :=
  (s.drop startID.length).foldl (fun a c => 10 * a + (c.toNat - 48)) 0

/-- Modelled from the spec: mocks/commons.go composes a storage key as
owner, separator `-`, identifier (section 4.4). -/
def key (owner id : Str) : Str := owner ++ '-' :: id

section Map

variable {V : Type}

/-- Lookup in the association-list model of a Go map. -/
def mapLookup : List (Str × V) → Str → Option V
  | [], _ => none
  | (k0, v) :: rest, k => if k0 = k then some v else mapLookup rest k

/-- Insertion (`m[k] = v`) in the association-list model of a Go map:
replaces the binding in place if present, otherwise appends. -/
def mapPut : List (Str × V) → Str → V → List (Str × V)
  | [], k, v => [(k, v)]
  | (k0, v0) :: rest, k, v =>
    if k0 = k then (k, v) :: rest else (k0, v0) :: mapPut rest k v

/-- Deletion (`delete(m, k)`) in the association-list model of a Go map. -/
def mapDel (m : List (Str × V)) (k : Str) : List (Str × V) :=
  m.filter (fun kv => kv.1 ≠ k)

end Map

/-- Decidable equality of results, so that runs can be checked by
evaluation. -/
instance {ε α : Type} [DecidableEq ε] [DecidableEq α] : DecidableEq (Except ε α) :=
  fun x y =>
    match x, y with
    | .ok a, .ok b =>
      if h : a = b then isTrue (by rw [h]) else isFalse (by intro hh; cases hh; exact h rfl)
    | .error a, .error b =>
      if h : a = b then isTrue (by rw [h]) else isFalse (by intro hh; cases hh; exact h rfl)
    | .ok _, .error _ => isFalse (by intro hh; cases hh)
    | .error _, .ok _ => isFalse (by intro hh; cases hh)

/-- Error values of the things package (service.go). -/
inductive Err where
  | Conflict
  | MalformedEntity
  | UnauthorizedAccess
  | NotFound
  deriving DecidableEq, Repr

/-- Modelled from the spec: the Thing record (section 3) — the struct
definition itself is not among the sources.  Metadata is kept opaque. -/
structure Thing where
  ID : Str
  Owner : Str
  Key : Str
  Name : Str
  Metadata : Str
  deriving DecidableEq, Repr

/-- Modelled from the spec: the Channel record (section 3), with the
connected Things materialized as an embedded collection. -/
structure Channel where
  ID : Str
  Owner : Str
  Name : Str
  Metadata : Str
  Things : List Thing
  deriving DecidableEq, Repr

/-- Go zero value of Thing (what `make([]things.Thing, n)` fills in). -/
def zeroThing : Thing := { ID := [], Owner := [], Key := [], Name := [], Metadata := [] }

abbrev ChanMap := List (Str × Channel)
abbrev ThingMap := List (Str × Thing)

/-! Channel repository mock (mocks/channels.go). -/

/-- channelRepositoryMock.Save: stores under `key(owner, id)` and returns
the id; it never fails. -/
def chanSave (c : Channel) (m : ChanMap) : (Except Err Str) × ChanMap :=
  (.ok c.ID, mapPut m (key c.Owner c.ID) c)

/-- channelRepositoryMock.Update: NotFound if the `(owner, id)` key is
absent, otherwise replaces the stored channel. -/
def chanUpdate (c : Channel) (m : ChanMap) : Option Err × ChanMap :=
  match mapLookup m (key c.Owner c.ID) with
  | some _ => (none, mapPut m (key c.Owner c.ID) c)
  | none => (some .NotFound, m)

/-- channelRepositoryMock.One. -/
def chanOne (owner id : Str) (m : ChanMap) : Except Err Channel :=
  match mapLookup m (key owner id) with
  | some c => .ok c
  | none => .error .NotFound

/-- Stable insertion of a channel into a list sorted by ID ascending: the
channel goes before the first element not strictly below it. -/
def insertByID (c : Channel) : List Channel → List Channel
  | [] => [c]
  | d :: ds => if lexLt d.ID c.ID then d :: insertByID c ds else c :: d :: ds

/-- Stable sort by ID ascending: the model of Go's sort.SliceStable with
the comparison `channels[i].ID < channels[j].ID`. -/
def sortByID : List Channel → List Channel
  | [] => []
  | c :: cs => insertByID c (sortByID cs)

/-- channelRepositoryMock.All: keeps entries whose key carries the owner
prefix and whose ID lies in the half-open zero-padded range, then
stable-sorts by ID ascending (sort.SliceStable). -/
def chanAll (owner : Str) (offset limit : Int) (m : ChanMap) : List Channel :=
  if offset < 0 ∨ limit ≤ 0 then []
  else
    let first := startID ++ fmt012 (offset + 1).toNat
    let last := startID ++ fmt012 (offset + limit + 1).toNat
    sortByID ((m.filter fun kv =>
      (owner ++ ['-']).isPrefixOf kv.1 && !(lexLt kv.2.ID first) && lexLt kv.2.ID last).map (·.2))

/-- channelRepositoryMock.Remove: deletes the key, never fails. -/
def chanRemove (owner id : Str) (m : ChanMap) : Option Err × ChanMap :=
  (none, mapDel m (key owner id))

/-- Modelled from the spec: the Thing store mock's One (section 4.2) —
mocks/things.go is not among the sources; it mirrors the channel mock. -/
def thingOne (owner id : Str) (tm : ThingMap) : Except Err Thing :=
  match mapLookup tm (key owner id) with
  | some t => .ok t
  | none => .error .NotFound

/-- Modelled from the spec: the Thing store mock's Save (section 4.2),
mirroring the channel mock's Save. -/
def thingSave (t : Thing) (tm : ThingMap) : (Except Err Str) × ThingMap :=
  (.ok t.ID, mapPut tm (key t.Owner t.ID) t)

/-- channelRepositoryMock.Connect: fetch channel and thing under the owner,
append the thing to the channel's connected list, store via Update. -/
def chanConnect (owner chanID thingID : Str) (tm : ThingMap) (m : ChanMap) :
    Option Err × ChanMap :=
  match chanOne owner chanID m with
  | .error e => (some e, m)
  | .ok channel =>
    match thingOne owner thingID tm with
    | .error e => (some e, m)
    | .ok thing => chanUpdate { channel with Things := channel.Things ++ [thing] } m

/-- channelRepositoryMock.Disconnect: if some connected thing has the given
ID, rebuild the connected list as `make([]Thing, len-1)` — length `len-1`
of zero values — followed by appends of every non-matching thing, and store
via Update; otherwise NotFound. -/
def chanDisconnect (owner chanID thingID : Str) (m : ChanMap) : Option Err × ChanMap :=
  match chanOne owner chanID m with
  | .error e => (some e, m)
  | .ok channel =>
    if channel.Things.any (fun t => t.ID = thingID) then
      chanUpdate
        { channel with
          Things := List.replicate (channel.Things.length - 1) zeroThing ++
            channel.Things.filter (fun t => ¬ t.ID = thingID) } m
    else (some .NotFound, m)

/-- First connected thing of `c` whose device key matches. -/
def findByKey (k : Str) : List Thing → Option Thing
  | [] => none
  | t :: ts => if t.Key = k then some t else findByKey k ts

/-- channelRepositoryMock.HasThing: scan for the first map key carrying the
`-chanID` suffix; within that channel, return the ID of the first connected
thing whose device key matches, else NotFound (the Go loop breaks after the
first suffix match). -/
def hasThing (chanID k : Str) : ChanMap → Except Err Str
  | [] => .error .NotFound
  | (k0, v) :: rest =>
    if ('-' :: chanID).isSuffixOf k0 then
      match findByKey k v.Things with
      | some t => .ok t.ID
      | none => .error .NotFound
    else hasThing chanID k rest

/-! Things service (service.go).  The users client is modelled by an
`identify` function (the Auth Oracle: credential to owner identity, `none`
on any failure including timeout), the identity provider by the counter in
the service state. -/

structure SvcState where
  counter : Nat
  things : ThingMap
  channels : ChanMap
  deriving DecidableEq, Repr

/-- thingsService.AddThing: authorize, stamp fresh ID, resolved owner and a
fresh device key (two successive identity-provider calls), then Save (which
never fails in the mock). -/
def addThing (identify : Str → Option Str) (cred : Str) (t : Thing) (st : SvcState) :
    Except Err Thing × SvcState :=
  match identify cred with
  | none => (.error .UnauthorizedAccess, st)
  | some o =>
    let t1 := { t with ID := mkID (st.counter + 1), Owner := o, Key := mkID (st.counter + 2) }
    let (_, tm) := thingSave t1 st.things
    (.ok t1, { st with counter := st.counter + 2, things := tm })

/-- thingsService.CreateChannel: authorize, stamp fresh ID and resolved
owner, then Save. -/
def createChannel (identify : Str → Option Str) (cred : Str) (c : Channel) (st : SvcState) :
    Except Err Channel × SvcState :=
  match identify cred with
  | none => (.error .UnauthorizedAccess, st)
  | some o =>
    let c1 := { c with ID := mkID (st.counter + 1), Owner := o }
    let (_, m) := chanSave c1 st.channels
    (.ok c1, { st with counter := st.counter + 1, channels := m })

/-- thingsService.UpdateChannel: authorize, overwrite the owner field with
the resolved identity, delegate to the repository Update. -/
def updateChannel (identify : Str → Option Str) (cred : Str) (c : Channel) (st : SvcState) :
    Option Err × SvcState :=
  match identify cred with
  | none => (some .UnauthorizedAccess, st)
  | some o =>
    let (e, m) := chanUpdate { c with Owner := o } st.channels
    (e, { st with channels := m })

/-- thingsService.ListChannels: authorize, delegate to All. -/
def listChannels (identify : Str → Option Str) (cred : Str) (offset limit : Int)
    (st : SvcState) : Except Err (List Channel) :=
  match identify cred with
  | none => .error .UnauthorizedAccess
  | some o => .ok (chanAll o offset limit st.channels)

/-- thingsService.RemoveChannel: authorize, delegate to Remove. -/
def removeChannel (identify : Str → Option Str) (cred : Str) (id : Str) (st : SvcState) :
    Option Err × SvcState :=
  match identify cred with
  | none => (some .UnauthorizedAccess, st)
  | some o =>
    let (e, m) := chanRemove o id st.channels
    (e, { st with channels := m })

/-- thingsService.Connect: authorize, delegate to the repository Connect. -/
def connect (identify : Str → Option Str) (cred : Str) (chanID thingID : Str)
    (st : SvcState) : Option Err × SvcState :=
  match identify cred with
  | none => (some .UnauthorizedAccess, st)
  | some o =>
    let (e, m) := chanConnect o chanID thingID st.things st.channels
    (e, { st with channels := m })

/-- thingsService.Disconnect: authorize, delegate to the repository
Disconnect. -/
def disconnect (identify : Str → Option Str) (cred : Str) (chanID thingID : Str)
    (st : SvcState) : Option Err × SvcState :=
  match identify cred with
  | none => (some .UnauthorizedAccess, st)
  | some o =>
    let (e, m) := chanDisconnect o chanID thingID st.channels
    (e, { st with channels := m })

/-- thingsService.CanAccess: no Oracle call; delegate to HasThing, folding
any failure into UnauthorizedAccess. -/
def canAccess (k channel : Str) (st : SvcState) : Except Err Str :=
  match hasThing channel k st.channels with
  | .ok thingID => .ok thingID
  | .error _ => .error .UnauthorizedAccess

/-! Concrete scenario used by counterexamples and witnesses: one owner
(identity "a", credential "c"), plus a second owner whose identity contains
the key separator (identity "a-b", credential "d"). -/

/-- Auth Oracle resolving credential "c" to owner "a". -/
def exIdentify : Str → Option Str := fun cred => if cred = ['c'] then some ['a'] else none

/-- Auth Oracle resolving credential "d" to the owner identity "a-b",
which contains the key separator. -/
def exIdentifyAB : Str → Option Str :=
  fun cred => if cred = ['d'] then some ['a', '-', 'b'] else none

/-- Caller-supplied thing payload (all fields zero). -/
def exT0 : Thing := { ID := [], Owner := [], Key := [], Name := [], Metadata := [] }

/-- Caller-supplied channel payload (all fields zero). -/
def exC0 : Channel := { ID := [], Owner := [], Name := [], Metadata := [], Things := [] }

/-- Empty service state. -/
def exSt0 : SvcState := { counter := 0, things := [], channels := [] }

/-- State after owner "a" creates a thing (ID `mkID 1`, key `mkID 2`). -/
def exSt1 : SvcState := (addThing exIdentify ['c'] exT0 exSt0).2

/-- State after owner "a" additionally creates a channel (ID `mkID 3`). -/
def exSt2 : SvcState := (createChannel exIdentify ['c'] exC0 exSt1).2

/-- State after connecting the thing to the channel. -/
def exSt3 : SvcState := (connect exIdentify ['c'] (mkID 3) (mkID 1) exSt2).2

/-- The stored thing of the scenario. -/
def exThing1 : Thing := { exT0 with ID := mkID 1, Owner := ['a'], Key := mkID 2 }

/-- State after owner "a" creates a second thing (ID `mkID 4`, key `mkID 5`). -/
def exSt5 : SvcState := (addThing exIdentify ['c'] exT0 exSt3).2

/-- The second stored thing of the scenario. -/
def exThing4 : Thing := { exT0 with ID := mkID 4, Owner := ['a'], Key := mkID 5 }

/-- State after also connecting the second thing: the channel's connected
list is the two things in creation order. -/
def exSt6 : SvcState := (connect exIdentify ['c'] (mkID 3) (mkID 4) exSt5).2

/-- State after disconnecting the first thing from the channel. -/
def exSt7 : SvcState := (disconnect exIdentify ['c'] (mkID 3) (mkID 1) exSt6).2

/-- State after the separator-carrying owner "a-b" creates one channel
(ID `mkID 1`) through the service. -/
def exStAB : SvcState := (createChannel exIdentifyAB ['d'] exC0 exSt0).2

/-- A channel of owner "a" whose creation counter is 999999999999, the
largest value whose identifier still fits the 12-digit padding. -/
def exBigChan : Channel :=
  { ID := mkID 999999999999, Owner := ['a'], Name := [], Metadata := [], Things := [] }

/-- Store holding just `exBigChan` under its owner-scoped key. -/
def exBigMap : ChanMap := [(key ['a'] exBigChan.ID, exBigChan)]

/-- State after disconnecting the single connected thing again (the
one-thing scenario of claim C1). -/
def exSt4 : SvcState := (disconnect exIdentify ['c'] (mkID 3) (mkID 1) exSt3).2

/-! Map lemmas. -/

theorem mapLookup_put_self {V : Type} (m : List (Str × V)) (k : Str) (v : V) :
    mapLookup (mapPut m k v) k = some v := by
  induction m with
  | nil => simp [mapPut, mapLookup]
  | cons kv rest ih =>
    obtain ⟨k0, v0⟩ := kv
    by_cases h : k0 = k
    · simp [mapPut, h, mapLookup]
    · simp [mapPut, h, mapLookup, ih]

theorem mapLookup_none_iff {V : Type} (m : List (Str × V)) (k : Str) :
    mapLookup m k = none ↔ ∀ kv ∈ m, kv.1 ≠ k := by
  induction m with
  | nil => simp [mapLookup]
  | cons kv rest ih =>
    obtain ⟨k0, v0⟩ := kv
    simp only [mapLookup]
    rw [List.forall_mem_cons]
    by_cases h : k0 = k
    · rw [if_pos h]
      constructor
      · intro hc; cases hc
      · rintro ⟨h1, _⟩; exact absurd h h1
    · rw [if_neg h, ih]
      constructor
      · intro hr; exact ⟨h, hr⟩
      · rintro ⟨_, hr⟩; exact hr

theorem mapDel_absent {V : Type} (m : List (Str × V)) (k : Str)
    (h : mapLookup m k = none) : mapDel m k = m := by
  have h2 := (mapLookup_none_iff m k).mp h
  unfold mapDel
  rw [List.filter_eq_self]
  intro a ha
  simpa using h2 a ha

theorem isSuffixOf_append_self (p l : Str) : l.isSuffixOf (p ++ l) = true := by
  rw [List.isSuffixOf_iff_suffix]
  exact List.suffix_append p l

/-- C2: an update whose owner-scoped key is absent fails with NotFound and
leaves the whole service state untouched; in particular it neither creates
a resource nor overwrites one stored under a different key. -/
theorem c2_update_forged_owner (identify : Str → Option Str) (cred o : Str)
    (c : Channel) (st : SvcState)
    (hid : identify cred = some o)
    (habs : mapLookup st.channels (key o c.ID) = none) :
    updateChannel identify cred c st = (some Err.NotFound, st) := by
  simp [updateChannel, hid, chanUpdate, habs]

theorem c2_witness :
    exIdentify ['c'] = some ['a'] ∧
    mapLookup exSt0.channels (key ['a'] exC0.ID) = none ∧
    updateChannel exIdentify ['c'] exC0 exSt0 = (some Err.NotFound, exSt0) :=
  ⟨by decide, by decide,
    c2_update_forged_owner exIdentify ['c'] ['a'] exC0 exSt0 (by decide) (by decide)⟩

/-- C7: disconnecting a thing that is not a member of an existing channel
fails with NotFound and returns the store exactly as it was. -/
theorem c7_disconnect_nonmember (o cid tid : Str) (m : ChanMap) (c : Channel)
    (hc : mapLookup m (key o cid) = some c)
    (hnm : ∀ t ∈ c.Things, t.ID ≠ tid) :
    chanDisconnect o cid tid m = (some Err.NotFound, m) := by
  have hany : c.Things.any (fun t => t.ID = tid) = false := by
    simp only [List.any_eq_false]
    intro t ht
    simpa using hnm t ht
  simp [chanDisconnect, chanOne, hc, hany]

theorem c7_witness :
    mapLookup exSt2.channels (key ['a'] (mkID 3)) =
      some { exC0 with ID := mkID 3, Owner := ['a'] } ∧
    (∀ t ∈ ({ exC0 with ID := mkID 3, Owner := ['a'] } : Channel).Things, t.ID ≠ mkID 1) ∧
    chanDisconnect ['a'] (mkID 3) (mkID 1) exSt2.channels =
      (some Err.NotFound, exSt2.channels) :=
  ⟨by decide, by decide,
    c7_disconnect_nonmember ['a'] (mkID 3) (mkID 1) exSt2.channels
      { exC0 with ID := mkID 3, Owner := ['a'] } (by decide) (by decide)⟩

/-- C8: a successful create returns the resource with the freshly generated
identifier and the resolved owner stamped on it, discarding any
caller-supplied id and owner — and for things also a server-assigned key. -/
theorem c8_create_stamps (identify : Str → Option Str) (cred o : Str) (t : Thing)
    (c : Channel) (st : SvcState) (hid : identify cred = some o) :
    (addThing identify cred t st).1 =
      .ok { t with ID := mkID (st.counter + 1), Owner := o, Key := mkID (st.counter + 2) } ∧
    (createChannel identify cred c st).1 =
      .ok { c with ID := mkID (st.counter + 1), Owner := o } := by
  constructor <;> simp [addThing, createChannel, hid]

theorem c8_witness :
    exIdentify ['c'] = some ['a'] ∧
    ((addThing exIdentify ['c'] { exT0 with ID := ['z'], Owner := ['z'], Key := ['z'] } exSt0).1 =
      .ok { exT0 with ID := mkID 1, Owner := ['a'], Key := mkID 2 } ∧
    (createChannel exIdentify ['c'] { exC0 with ID := ['z'], Owner := ['z'] } exSt0).1 =
      .ok { exC0 with ID := mkID 1, Owner := ['a'] }) :=
  ⟨by decide,
    c8_create_stamps exIdentify ['c'] ['a'] { exT0 with ID := ['z'], Owner := ['z'], Key := ['z'] }
      { exC0 with ID := ['z'], Owner := ['z'] } exSt0 (by decide)⟩

/-- C9 counterexample: removing a channel that does not exist under the
resolved owner succeeds silently (nil error), instead of reporting
NotFound as the claim states. -/
theorem c9_counterexample :
    removeChannel exIdentify ['c'] (mkID 9) exSt0 = (none, exSt0) ∧
    (removeChannel exIdentify ['c'] (mkID 9) exSt0).1 ≠ some Err.NotFound := by
  decide

/-- C9 amended: Remove of a non-existent owner-scoped id returns no error
and leaves the state exactly as it was (the delete of an absent key is a
no-op); it never reports NotFound. -/
theorem c9_remove_missing_silent (identify : Str → Option Str) (cred o id : Str)
    (st : SvcState) (hid : identify cred = some o)
    (habs : mapLookup st.channels (key o id) = none) :
    removeChannel identify cred id st = (none, st) := by
  simp [removeChannel, hid, chanRemove, mapDel_absent _ _ habs]

theorem c9_witness :
    exIdentify ['c'] = some ['a'] ∧
    mapLookup exSt0.channels (key ['a'] (mkID 9)) = none ∧
    removeChannel exIdentify ['c'] (mkID 9) exSt0 = (none, exSt0) :=
  ⟨by decide, by decide,
    c9_remove_missing_silent exIdentify ['c'] ['a'] (mkID 9) exSt0 (by decide) (by decide)⟩

/-- C10 counterexample: a second Save under an already-used (owner, id)
key succeeds (returns the id, not a Conflict error) and replaces the
previously stored channel. -/
theorem c10_counterexample :
    (chanSave { exC0 with ID := ['i'], Owner := ['o'], Name := ['n'] }
      (chanSave { exC0 with ID := ['i'], Owner := ['o'] } []).2).1 = .ok ['i'] ∧
    mapLookup (chanSave { exC0 with ID := ['i'], Owner := ['o'], Name := ['n'] }
        (chanSave { exC0 with ID := ['i'], Owner := ['o'] } []).2).2 (key ['o'] ['i']) =
      some { exC0 with ID := ['i'], Owner := ['o'], Name := ['n'] } := by
  decide

/-- C10 amended: Save never fails; on an identifier collision it returns
the id and overwrites the previously stored resource. -/
theorem c10_save_overwrites (c c2 : Channel) (m : ChanMap)
    (hcol : mapLookup m (key c.Owner c.ID) = some c2) :
    (chanSave c m).1 = .ok c.ID ∧
    mapLookup (chanSave c m).2 (key c.Owner c.ID) = some c :=
  ⟨rfl, mapLookup_put_self m (key c.Owner c.ID) c⟩

theorem c10_witness :
    mapLookup [(key ['o'] ['i'], { exC0 with ID := ['i'], Owner := ['o'] })]
        (key (({ exC0 with ID := ['i'], Owner := ['o'], Name := ['n'] } : Channel).Owner)
          (({ exC0 with ID := ['i'], Owner := ['o'], Name := ['n'] } : Channel).ID)) =
      some { exC0 with ID := ['i'], Owner := ['o'] } ∧
    ((chanSave { exC0 with ID := ['i'], Owner := ['o'], Name := ['n'] }
        [(key ['o'] ['i'], { exC0 with ID := ['i'], Owner := ['o'] })]).1 =
      .ok ({ exC0 with ID := ['i'], Owner := ['o'], Name := ['n'] } : Channel).ID ∧
    mapLookup (chanSave { exC0 with ID := ['i'], Owner := ['o'], Name := ['n'] }
        [(key ['o'] ['i'], { exC0 with ID := ['i'], Owner := ['o'] })]).2
        (key (({ exC0 with ID := ['i'], Owner := ['o'], Name := ['n'] } : Channel).Owner)
          (({ exC0 with ID := ['i'], Owner := ['o'], Name := ['n'] } : Channel).ID)) =
      some { exC0 with ID := ['i'], Owner := ['o'], Name := ['n'] }) :=
  ⟨by decide,
    c10_save_overwrites { exC0 with ID := ['i'], Owner := ['o'], Name := ['n'] }
      { exC0 with ID := ['i'], Owner := ['o'] }
      [(key ['o'] ['i'], { exC0 with ID := ['i'], Owner := ['o'] })] (by decide)⟩

/-- C5 counterexample: connecting an already-connected (channel, thing)
pair appends a second occurrence — in the reachable state after two
Connect calls of the same pair, the thing's ID occurs twice in the
channel's connected list. -/
theorem c5_counterexample :
    (mapLookup (connect exIdentify ['c'] (mkID 3) (mkID 1) exSt3).2.channels
        (key ['a'] (mkID 3))).map (fun c => c.Things.countP (fun t => t.ID = mkID 1)) =
      some 2 := by
  decide

/-- C5 amended: every successful Connect appends exactly one occurrence of
the fetched thing to the channel's connected list, whether or not the
thing is already a member — membership is a list, not a set. -/
theorem c5_connect_appends (o cid tid : Str) (tm : ThingMap) (m : ChanMap)
    (c : Channel) (t : Thing)
    (hc : mapLookup m (key o cid) = some c)
    (hk : key c.Owner c.ID = key o cid)
    (ht : mapLookup tm (key o tid) = some t) :
    chanConnect o cid tid tm m =
      (none, mapPut m (key o cid) { c with Things := c.Things ++ [t] }) := by
  simp [chanConnect, chanOne, thingOne, chanUpdate, hc, ht, hk]

theorem c5_witness :
    mapLookup exSt3.channels (key ['a'] (mkID 3)) =
      some { exC0 with ID := mkID 3, Owner := ['a'], Things := [exThing1] } ∧
    key ({ exC0 with ID := mkID 3, Owner := ['a'], Things := [exThing1] } : Channel).Owner
        ({ exC0 with ID := mkID 3, Owner := ['a'], Things := [exThing1] } : Channel).ID =
      key ['a'] (mkID 3) ∧
    mapLookup exSt3.things (key ['a'] (mkID 1)) = some exThing1 ∧
    chanConnect ['a'] (mkID 3) (mkID 1) exSt3.things exSt3.channels =
      (none, mapPut exSt3.channels (key ['a'] (mkID 3))
        { { exC0 with ID := mkID 3, Owner := ['a'], Things := [exThing1] } with
          Things := ({ exC0 with ID := mkID 3, Owner := ['a'], Things := [exThing1] } :
            Channel).Things ++ [exThing1] }) :=
  ⟨by decide, by decide, by decide,
    c5_connect_appends ['a'] (mkID 3) (mkID 1) exSt3.things exSt3.channels
      { exC0 with ID := mkID 3, Owner := ['a'], Things := [exThing1] } exThing1
      (by decide) (by decide) (by decide)⟩

/-- C6: the code bug — disconnecting the first of two connected things
rebuilds the connected list as one zero-valued Thing (from
`make([]things.Thing, len-1)`) followed by the remaining thing, adding a
member that was never connected. -/
theorem c6_disconnect_adds_zero_thing :
    (mapLookup exSt6.channels (key ['a'] (mkID 3))).map (fun c => c.Things) =
      some [exThing1, exThing4] ∧
    (mapLookup exSt7.channels (key ['a'] (mkID 3))).map (fun c => c.Things) =
      some [zeroThing, exThing4] ∧
    zeroThing ∉ [exThing1, exThing4] := by
  decide

/-- C1 counterexample: in the one-thing scenario, CanAccess after Connect
returns the thing's ID, the Disconnect succeeds, and CanAccess afterwards
fails — but with UnauthorizedAccess, not with NotFound as claimed. -/
theorem c1_counterexample :
    canAccess (mkID 2) (mkID 3) exSt3 = .ok (mkID 1) ∧
    (disconnect exIdentify ['c'] (mkID 3) (mkID 1) exSt3).1 = none ∧
    canAccess (mkID 2) (mkID 3) exSt4 = .error Err.UnauthorizedAccess ∧
    canAccess (mkID 2) (mkID 3) exSt4 ≠ .error Err.NotFound := by
  decide

/-- C1 amended: for a fresh owner, thing and channel created from the
empty state, Connect then CanAccess with the thing's key yields the
thing's ID; after Disconnect of the same pair, CanAccess fails with
UnauthorizedAccess (the service folds the store's NotFound into
UnauthorizedAccess). -/
theorem c1_connect_access_disconnect (identify : Str → Option Str) (cred o : Str)
    (t0 : Thing) (c0 : Channel)
    (hid : identify cred = some o) (hc0 : c0.Things = []) :
    canAccess (mkID 2) (mkID 3)
      ((connect identify cred (mkID 3) (mkID 1)
        ((createChannel identify cred c0 ((addThing identify cred t0 exSt0).2)).2)).2) =
      .ok (mkID 1) ∧
    (disconnect identify cred (mkID 3) (mkID 1)
      ((connect identify cred (mkID 3) (mkID 1)
        ((createChannel identify cred c0 ((addThing identify cred t0 exSt0).2)).2)).2)).1 =
      none ∧
    canAccess (mkID 2) (mkID 3)
      ((disconnect identify cred (mkID 3) (mkID 1)
        ((connect identify cred (mkID 3) (mkID 1)
          ((createChannel identify cred c0 ((addThing identify cred t0 exSt0).2)).2)).2)).2) =
      .error Err.UnauthorizedAccess := by
  simp [addThing, createChannel, connect, disconnect, canAccess, chanConnect,
    chanDisconnect, chanOne, thingOne, chanUpdate, hasThing, findByKey, hid, hc0,
    exSt0, thingSave, chanSave, mapPut, mapLookup, isSuffixOf_append_self, key]

theorem c1_witness :
    exIdentify ['c'] = some ['a'] ∧ exC0.Things = [] ∧
    (canAccess (mkID 2) (mkID 3)
      ((connect exIdentify ['c'] (mkID 3) (mkID 1)
        ((createChannel exIdentify ['c'] exC0 ((addThing exIdentify ['c'] exT0 exSt0).2)).2)).2) =
      .ok (mkID 1) ∧
    (disconnect exIdentify ['c'] (mkID 3) (mkID 1)
      ((connect exIdentify ['c'] (mkID 3) (mkID 1)
        ((createChannel exIdentify ['c'] exC0 ((addThing exIdentify ['c'] exT0 exSt0).2)).2)).2)).1 =
      none ∧
    canAccess (mkID 2) (mkID 3)
      ((disconnect exIdentify ['c'] (mkID 3) (mkID 1)
        ((connect exIdentify ['c'] (mkID 3) (mkID 1)
          ((createChannel exIdentify ['c'] exC0 ((addThing exIdentify ['c'] exT0 exSt0).2)).2)).2)).2) =
      .error Err.UnauthorizedAccess) :=
  ⟨by decide, by decide,
    c1_connect_access_disconnect exIdentify ['c'] ['a'] exT0 exC0 (by decide) (by decide)⟩

/-! Order theory of the lexicographic comparison. -/

theorem lexLt_irrefl (l : Str) : lexLt l l = false := by
  induction l with
  | nil => rfl
  | cons a as ih => simp [lexLt, ih]

theorem lexLt_append_same (p a b : Str) : lexLt (p ++ a) (p ++ b) = lexLt a b := by
  induction p with
  | nil => rfl
  | cons c cs ih => simp [lexLt, ih]

theorem lexLt_asymm (a b : Str) (h : lexLt a b = true) : lexLt b a = false := by
  induction a generalizing b with
  | nil =>
    cases b with
    | nil => exact absurd h (by simp [lexLt])
    | cons y ys => rfl
  | cons x xs ih =>
    cases b with
    | nil => exact absurd h (by simp [lexLt])
    | cons y ys =>
      simp only [lexLt] at h ⊢
      rcases lt_trichotomy x y with hxy | hxy | hxy
      · rw [if_neg (lt_asymm hxy), if_pos hxy]
      · subst hxy
        rw [if_neg (lt_irrefl x)] at h ⊢
        rw [if_neg (lt_irrefl x)] at h ⊢
        exact ih ys (by simpa using h)
      · rw [if_neg (lt_asymm hxy), if_pos hxy] at h
        exact absurd h (by simp)

theorem lexLt_connex (a b : Str) (h1 : lexLt a b = false) (h2 : lexLt b a = false) :
    a = b := by
  induction a generalizing b with
  | nil =>
    cases b with
    | nil => rfl
    | cons y ys => exact absurd h1 (by simp [lexLt])
  | cons x xs ih =>
    cases b with
    | nil => exact absurd h2 (by simp [lexLt])
    | cons y ys =>
      simp only [lexLt] at h1 h2
      rcases lt_trichotomy x y with hxy | hxy | hxy
      · rw [if_pos hxy] at h1; exact absurd h1 (by simp)
      · subst hxy
        rw [if_neg (lt_irrefl x), if_neg (lt_irrefl x)] at h1 h2
        rw [ih ys h1 h2]
      · rw [if_pos hxy] at h2; exact absurd h2 (by simp)

theorem lexLt_trans (a b c : Str) (h1 : lexLt a b = true) (h2 : lexLt b c = true) :
    lexLt a c = true := by
  induction a generalizing b c with
  | nil =>
    cases c with
    | nil =>
      cases b with
      | nil => exact h1
      | cons y ys => exact absurd h2 (by simp [lexLt])
    | cons z zs => simp [lexLt]
  | cons x xs ih =>
    cases b with
    | nil => exact absurd h1 (by simp [lexLt])
    | cons y ys =>
      cases c with
      | nil => exact absurd h2 (by simp [lexLt])
      | cons z zs =>
        simp only [lexLt] at h1 h2 ⊢
        rcases lt_trichotomy x y with hxy | hxy | hxy
        · rcases lt_trichotomy y z with hyz | hyz | hyz
          · rw [if_pos (lt_trans hxy hyz)]
          · subst hyz; rw [if_pos hxy]
          · rw [if_neg (lt_asymm hyz), if_pos hyz] at h2
            exact absurd h2 (by simp)
        · subst hxy
          rcases lt_trichotomy x z with hxz | hxz | hxz
          · rw [if_pos hxz]
          · subst hxz
            rw [if_neg (lt_irrefl x), if_neg (lt_irrefl x)] at h1 h2 ⊢
            exact ih ys zs (by simpa using h1) (by simpa using h2)
          · rw [if_neg (lt_asymm hxz), if_pos hxz] at h2
            exact absurd h2 (by simp)
        · rw [if_neg (lt_asymm hxy), if_pos hxy] at h1
          exact absurd h1 (by simp)

theorem lexLt_false_cases (a b : Str) (h : lexLt a b = false) :
    a = b ∨ lexLt b a = true := by
  cases hba : lexLt b a with
  | false => exact .inl (lexLt_connex a b h hba)
  | true => exact .inr rfl

/-! Decimal digits: zero-padded fixed-width strings compare
lexicographically exactly as the numbers they encode. -/

theorem digitChar_lt_iff : ∀ d < 10, ∀ e < 10, (digitChar d < digitChar e ↔ d < e) := by
  decide

theorem digitChar_toNat : ∀ d < 10, (digitChar d).toNat = 48 + d := by
  decide

theorem div_pow_lt_ten (w n : Nat) (h : n < 10 ^ (w + 1)) : n / 10 ^ w < 10 := by
  have hK : 0 < 10 ^ w := pow_pos (by norm_num) w
  rw [Nat.div_lt_iff_lt_mul hK]
  calc n < 10 ^ (w + 1) := h
    _ = 10 * 10 ^ w := by rw [pow_succ]; ring

theorem padDigits_lt_iff (w : Nat) : ∀ a b : Nat, a < 10 ^ w → b < 10 ^ w →
    ((lexLt ((padDigits w a).map digitChar) ((padDigits w b).map digitChar) = true) ↔
      a < b) := by
  induction w with
  | zero =>
    intro a b ha hb
    have ha0 : a = 0 := by omega
    have hb0 : b = 0 := by omega
    subst ha0; subst hb0
    simp [padDigits, lexLt]
  | succ w ih =>
    intro a b ha hb
    have hK : 0 < 10 ^ w := pow_pos (by norm_num) w
    have hda : a / 10 ^ w < 10 := div_pow_lt_ten w a ha
    have hdb : b / 10 ^ w < 10 := div_pow_lt_ten w b hb
    have hra : a % 10 ^ w < 10 ^ w := Nat.mod_lt _ hK
    have hrb : b % 10 ^ w < 10 ^ w := Nat.mod_lt _ hK
    have ea : 10 ^ w * (a / 10 ^ w) + a % 10 ^ w = a := Nat.div_add_mod a (10 ^ w)
    have eb : 10 ^ w * (b / 10 ^ w) + b % 10 ^ w = b := Nat.div_add_mod b (10 ^ w)
    simp only [padDigits, List.map_cons, lexLt]
    rcases lt_trichotomy (a / 10 ^ w) (b / 10 ^ w) with hd | hd | hd
    · rw [if_pos ((digitChar_lt_iff _ hda _ hdb).mpr hd)]
      have hab : a < b := by
        calc a = 10 ^ w * (a / 10 ^ w) + a % 10 ^ w := ea.symm
          _ < 10 ^ w * (a / 10 ^ w) + 10 ^ w := Nat.add_lt_add_left hra _
          _ = 10 ^ w * (a / 10 ^ w + 1) := by ring
          _ ≤ 10 ^ w * (b / 10 ^ w) := Nat.mul_le_mul_left _ hd
          _ ≤ 10 ^ w * (b / 10 ^ w) + b % 10 ^ w := Nat.le_add_right _ _
          _ = b := eb
      simp [hab]
    · rw [hd, if_neg (lt_irrefl _), if_neg (lt_irrefl _)]
      rw [ih _ _ hra hrb]
      constructor
      · intro hlt
        calc a = 10 ^ w * (a / 10 ^ w) + a % 10 ^ w := ea.symm
          _ < 10 ^ w * (a / 10 ^ w) + b % 10 ^ w := Nat.add_lt_add_left hlt _
          _ = 10 ^ w * (b / 10 ^ w) + b % 10 ^ w := by rw [hd]
          _ = b := eb
      · intro hlt
        by_contra hge
        refine absurd hlt (Nat.not_lt.mpr ?_)
        calc b = 10 ^ w * (b / 10 ^ w) + b % 10 ^ w := eb.symm
          _ ≤ 10 ^ w * (b / 10 ^ w) + a % 10 ^ w :=
            Nat.add_le_add_left (Nat.not_lt.mp hge) _
          _ = 10 ^ w * (a / 10 ^ w) + a % 10 ^ w := by rw [hd]
          _ = a := ea
    · rw [if_neg (lt_asymm ((digitChar_lt_iff _ hdb _ hda).mpr hd)),
        if_pos ((digitChar_lt_iff _ hdb _ hda).mpr hd)]
      have hba : b < a := by
        calc b = 10 ^ w * (b / 10 ^ w) + b % 10 ^ w := eb.symm
          _ < 10 ^ w * (b / 10 ^ w) + 10 ^ w := Nat.add_lt_add_left hrb _
          _ = 10 ^ w * (b / 10 ^ w + 1) := by ring
          _ ≤ 10 ^ w * (a / 10 ^ w) := Nat.mul_le_mul_left _ hd
          _ ≤ 10 ^ w * (a / 10 ^ w) + a % 10 ^ w := Nat.le_add_right _ _
          _ = a := ea
      exact iff_of_false (by simp) (Nat.lt_asymm hba)

theorem fmt012_small (n : Nat) (h : n < 10 ^ 12) :
    fmt012 n = (padDigits 12 n).map digitChar := by
  unfold fmt012
  rw [if_pos h]

theorem mkID_lt_iff (a b : Nat) (ha : a < 10 ^ 12) (hb : b < 10 ^ 12) :
    (lexLt (mkID a) (mkID b) = true) ↔ a < b := by
  unfold mkID
  rw [fmt012_small a ha, fmt012_small b hb, lexLt_append_same]
  exact padDigits_lt_iff 12 a b ha hb

theorem mkID_inj (a b : Nat) (ha : a < 10 ^ 12) (hb : b < 10 ^ 12)
    (h : mkID a = mkID b) : a = b := by
  rcases lt_trichotomy a b with hab | hab | hab
  · have := (mkID_lt_iff a b ha hb).mpr hab
    rw [h, lexLt_irrefl] at this
    cases this
  · exact hab
  · have := (mkID_lt_iff b a hb ha).mpr hab
    rw [h, lexLt_irrefl] at this
    cases this

theorem foldl_digits (w : Nat) : ∀ n acc : Nat, n < 10 ^ w →
    List.foldl (fun a c => 10 * a + (c.toNat - 48)) acc ((padDigits w n).map digitChar) =
      acc * 10 ^ w + n := by
  induction w with
  | zero =>
    intro n acc h
    have hn : n = 0 := by omega
    subst hn
    simp [padDigits]
  | succ w ih =>
    intro n acc h
    have hK : 0 < 10 ^ w := pow_pos (by norm_num) w
    have hd : n / 10 ^ w < 10 := div_pow_lt_ten w n h
    have hr : n % 10 ^ w < 10 ^ w := Nat.mod_lt _ hK
    simp only [padDigits, List.map_cons, List.foldl_cons]
    rw [digitChar_toNat _ hd, ih _ _ hr]
    calc (10 * acc + (48 + n / 10 ^ w - 48)) * 10 ^ w + n % 10 ^ w
        = acc * (10 ^ w * 10) + (10 ^ w * (n / 10 ^ w) + n % 10 ^ w) := by
          rw [Nat.add_sub_cancel_left]; ring
      _ = acc * 10 ^ (w + 1) + n := by rw [Nat.div_add_mod, pow_succ]

theorem idNum_mkID (n : Nat) (h : n < 10 ^ 12) : idNum (mkID n) = n := by
  unfold idNum mkID startID
  rw [fmt012_small n h]
  simp only [List.singleton_append, List.length_cons, List.length_nil, List.drop_succ_cons,
    List.drop_zero]
  rw [foldl_digits 12 n 0 h]
  simp

/-! Key separation: when owner identities are free of the separator, the
composed key determines the owner. -/

theorem sep_split (aL : Str) : ∀ bL x y : Str, ('-' : Char) ∉ aL → ('-' : Char) ∉ bL →
    aL ++ '-' :: x = bL ++ '-' :: y → aL = bL ∧ x = y := by
  induction aL with
  | nil =>
    intro bL x y _ hb h
    cases bL with
    | nil => simpa using h
    | cons b bs =>
      simp only [List.nil_append, List.cons_append, List.cons.injEq] at h
      exact absurd (h.1 ▸ List.mem_cons_self b bs) hb
  | cons a as ih =>
    intro bL x y ha hb h
    cases bL with
    | nil =>
      simp only [List.cons_append, List.nil_append, List.cons.injEq] at h
      exact absurd (h.1 ▸ List.mem_cons_self a as) ha
    | cons b bs =>
      simp only [List.cons_append, List.cons.injEq] at h
      have ha2 : ('-' : Char) ∉ as := fun hm => ha (List.mem_cons_of_mem a hm)
      have hb2 : ('-' : Char) ∉ bs := fun hm => hb (List.mem_cons_of_mem b hm)
      obtain ⟨h1, h2⟩ := ih bs x y ha2 hb2 h.2
      exact ⟨by rw [h.1, h1], h2⟩

theorem owner_of_key_pre (o ow idl : Str) (ho : ('-' : Char) ∉ o)
    (hw : ('-' : Char) ∉ ow) (h : (o ++ ['-']) <+: ow ++ '-' :: idl) : o = ow := by
  obtain ⟨r, hr⟩ := h
  rw [List.append_assoc] at hr
  exact (sep_split o ow r idl ho hw (by simpa using hr)).1

/-! Sorting lemmas for the stable sort by ID. -/

theorem insertByID_perm (c : Channel) (l : List Channel) :
    List.Perm (insertByID c l) (c :: l) := by
  induction l with
  | nil => simp [insertByID]
  | cons d ds ih =>
    simp only [insertByID]
    by_cases h : lexLt d.ID c.ID = true
    · rw [if_pos h]
      exact ((ih.cons d).trans (List.Perm.swap c d ds))
    · rw [if_neg h]

theorem sortByID_perm (l : List Channel) : List.Perm (sortByID l) l := by
  induction l with
  | nil => simp [sortByID]
  | cons c cs ih => exact (insertByID_perm c (sortByID cs)).trans (ih.cons c)

theorem pairwise_insertByID (c : Channel) (l : List Channel)
    (h : l.Pairwise (fun a b => lexLt b.ID a.ID = false)) :
    (insertByID c l).Pairwise (fun a b => lexLt b.ID a.ID = false) := by
  induction l with
  | nil => simp [insertByID]
  | cons d ds ih =>
    rw [List.pairwise_cons] at h
    obtain ⟨hd1, hd2⟩ := h
    simp only [insertByID]
    by_cases hdc : lexLt d.ID c.ID = true
    · rw [if_pos hdc, List.pairwise_cons]
      constructor
      · intro x hx
        rcases List.mem_cons.mp ((insertByID_perm c ds).mem_iff.mp hx) with hxc | hxd
        · rw [hxc]
          exact lexLt_asymm d.ID c.ID hdc
        · exact hd1 x hxd
      · exact ih hd2
    · rw [if_neg hdc]
      have hdcf : lexLt d.ID c.ID = false := by
        cases hb : lexLt d.ID c.ID with
        | false => rfl
        | true => exact absurd hb hdc
      rw [List.pairwise_cons]
      constructor
      · intro x hx
        rcases List.mem_cons.mp hx with hxd | hxds
        · rw [hxd]
          exact hdcf
        · rcases lexLt_false_cases d.ID c.ID hdcf with hde | hcd
          · rw [← hde]
            exact hd1 x hxds
          · cases hxc : lexLt x.ID c.ID with
            | false => rfl
            | true =>
              have htr := lexLt_trans x.ID c.ID d.ID hxc hcd
              rw [hd1 x hxds] at htr
              cases htr
      · rw [List.pairwise_cons]
        exact ⟨hd1, hd2⟩

theorem pairwise_sortByID (l : List Channel) :
    (sortByID l).Pairwise (fun a b => lexLt b.ID a.ID = false) := by
  induction l with
  | nil => simp [sortByID]
  | cons c cs ih => exact pairwise_insertByID c (sortByID cs) ih

theorem mapLookup_some_mem {V : Type} (m : List (Str × V)) (k : Str) (v : V)
    (h : mapLookup m k = some v) : (k, v) ∈ m := by
  induction m with
  | nil => cases h
  | cons kv rest ih =>
    obtain ⟨k0, v0⟩ := kv
    simp only [mapLookup] at h
    by_cases he : k0 = k
    · rw [if_pos he] at h
      cases h
      rw [he]
      exact List.mem_cons_self _ _
    · rw [if_neg he] at h
      exact List.mem_cons_of_mem _ (ih h)

/-- C3 counterexample: the owner identity "a-b" contains the key
separator; after it creates one channel through the service, that channel
is returned by All for the distinct owner "a", and by One for owner "a"
with a crafted id — and its Owner is not "a". -/
theorem c3_counterexample :
    (chanAll ['a'] 0 10 exStAB.channels).map (fun c => c.Owner) = [['a', '-', 'b']] ∧
    chanOne ['a'] (['b', '-'] ++ mkID 1) exStAB.channels =
      .ok { exC0 with ID := mkID 1, Owner := ['a', '-', 'b'] } ∧
    (['a', '-', 'b'] : Str) ≠ ['a'] := by
  decide

/-- C3 amended: provided every stored entry is keyed by its own
separator-free owner and the queried owner identity is separator-free,
every channel returned by All or One for that owner has exactly that
owner — resources of distinct owners never leak into each other's
results. -/
theorem c3_owner_isolation (o : Str) (offset limit : Int) (m : ChanMap)
    (hm : ∀ kv ∈ m, kv.1 = key kv.2.Owner kv.2.ID ∧ ('-' : Char) ∉ kv.2.Owner)
    (ho : ('-' : Char) ∉ o) :
    (∀ c ∈ chanAll o offset limit m, c.Owner = o) ∧
    (∀ id c, chanOne o id m = .ok c → c.Owner = o) := by
  constructor
  · intro c hc
    by_cases hguard : offset < 0 ∨ limit ≤ 0
    · simp only [chanAll, if_pos hguard] at hc
      cases hc
    · simp only [chanAll, if_neg hguard] at hc
      have hc2 := (sortByID_perm _).mem_iff.mp hc
      rw [List.mem_map] at hc2
      obtain ⟨kv, hkvmem, hkv2⟩ := hc2
      rw [List.mem_filter] at hkvmem
      obtain ⟨hkvm, hp⟩ := hkvmem
      have hpre : (o ++ ['-']).isPrefixOf kv.1 = true := by
        simp only [Bool.and_eq_true] at hp
        exact hp.1.1
      obtain ⟨hkey, hnod⟩ := hm kv hkvm
      rw [hkey, List.isPrefixOf_iff_prefix] at hpre
      have hoo := owner_of_key_pre o kv.2.Owner kv.2.ID ho hnod hpre
      rw [← hkv2, ← hoo]
  · intro id c h1
    unfold chanOne at h1
    cases hl : mapLookup m (key o id) with
    | none => rw [hl] at h1; cases h1
    | some c2 =>
      rw [hl] at h1
      cases h1
      obtain ⟨hkey, hnod⟩ := hm (key o id, c) (mapLookup_some_mem m _ c hl)
      have hsp := sep_split o c.Owner id c.ID ho hnod (by simpa [key] using hkey)
      exact hsp.1.symm

/-- C4 counterexample: the channel with creation counter 999999999999 has
creation rank 999999999998, which lies in the window of
All(owner, 999999999998, 1); yet All returns the empty list, because the
window's upper boundary 10^12 no longer fits the fixed 12-digit padding
and the string-range comparison breaks. -/
theorem c4_counterexample :
    chanAll ['a'] 999999999998 1 exBigMap = [] ∧
    (999999999998 : Int) ≤ (idNum exBigChan.ID : Int) - 1 ∧
    (idNum exBigChan.ID : Int) - 1 < 999999999998 + 1 ∧
    exBigChan.Owner = ['a'] ∧ (key ['a'] exBigChan.ID, exBigChan) ∈ exBigMap := by
  decide

/-- C4 amended: for a store of well-keyed channels of separator-free
owners with well-formed identifiers, and a window whose upper boundary
still fits the 12-digit padding, All yields the empty list for a negative
offset or non-positive limit, never more than limit channels, in strictly
ascending id order, and contains a channel exactly when it is stored under
the queried owner with creation rank in [offset, offset + limit). -/
theorem c4_all_window (o : Str) (offset limit : Int) (m : ChanMap)
    (hm : ∀ kv ∈ m, kv.1 = key kv.2.Owner kv.2.ID ∧ ('-' : Char) ∉ kv.2.Owner ∧
      1 ≤ idNum kv.2.ID ∧ idNum kv.2.ID < 10 ^ 12 ∧ kv.2.ID = mkID (idNum kv.2.ID))
    (hnd : (m.map (fun kv => kv.2.ID)).Nodup)
    (ho : ('-' : Char) ∉ o)
    (hfit : offset + limit + 1 < 10 ^ 12) :
    ((offset < 0 ∨ limit ≤ 0) → chanAll o offset limit m = []) ∧
    (chanAll o offset limit m).length ≤ limit.toNat ∧
    (chanAll o offset limit m).Pairwise (fun a b => lexLt a.ID b.ID = true) ∧
    (∀ c, c ∈ chanAll o offset limit m ↔
      (0 ≤ offset ∧ 1 ≤ limit ∧ (key o c.ID, c) ∈ m ∧ c.Owner = o ∧
        offset ≤ (idNum c.ID : Int) - 1 ∧ (idNum c.ID : Int) - 1 < offset + limit)) := by
  have hpowI : (10 : Int) ^ 12 = 1000000000000 := by norm_num
  have hpowN : (10 : Nat) ^ 12 = 1000000000000 := by norm_num
  rw [hpowI] at hfit
  by_cases hguard : offset < 0 ∨ limit ≤ 0
  · simp only [chanAll, if_pos hguard]
    refine ⟨fun _ => trivial, Nat.zero_le _, List.Pairwise.nil, ?_⟩
    intro c
    simp only [List.not_mem_nil, false_iff]
    rintro ⟨h0, h1, _⟩
    rcases hguard with hg | hg <;> omega
  · have hoff : 0 ≤ offset := by omega
    have hlim : 1 ≤ limit := by omega
    have hAll : chanAll o offset limit m =
        sortByID ((m.filter fun kv =>
          (o ++ ['-']).isPrefixOf kv.1 &&
            !(lexLt kv.2.ID (startID ++ fmt012 (offset + 1).toNat)) &&
            lexLt kv.2.ID (startID ++ fmt012 (offset + limit + 1).toNat)).map (·.2)) := by
      simp only [chanAll, if_neg hguard]
    rw [hAll]
    set F := (offset + 1).toNat with hFdef
    set L := (offset + limit + 1).toNat with hLdef
    have hFsmall : F < 10 ^ 12 := by rw [hpowN]; omega
    have hLsmall : L < 10 ^ 12 := by rw [hpowN]; omega
    set P : Str × Channel → Bool := fun kv =>
      (o ++ ['-']).isPrefixOf kv.1 && !(lexLt kv.2.ID (startID ++ fmt012 F)) &&
        lexLt kv.2.ID (startID ++ fmt012 L) with hPdef
    have heF : startID ++ fmt012 F = mkID F := rfl
    have heL : startID ++ fmt012 L = mkID L := rfl
    have hPchar : ∀ kv ∈ m, (P kv = true ↔
        (kv.1 = key o kv.2.ID ∧ kv.2.Owner = o ∧ F ≤ idNum kv.2.ID ∧ idNum kv.2.ID < L)) := by
      intro kv hkv
      obtain ⟨hkey, hnod, hn1, hnlt, hrt⟩ := hm kv hkv
      rw [hPdef]
      simp only [Bool.and_eq_true, Bool.not_eq_true']
      constructor
      · rintro ⟨⟨hpre, hge⟩, hlt⟩
        rw [hkey, List.isPrefixOf_iff_prefix] at hpre
        have howner := owner_of_key_pre o kv.2.Owner kv.2.ID ho hnod hpre
        have hge2 : F ≤ idNum kv.2.ID := by
          by_contra hcon
          push_neg at hcon
          have hx := (mkID_lt_iff (idNum kv.2.ID) F hnlt hFsmall).mpr hcon
          rw [heF, hrt] at hge
          rw [hx] at hge
          cases hge
        have hlt2 : idNum kv.2.ID < L := by
          rw [heL, hrt] at hlt
          exact (mkID_lt_iff _ _ hnlt hLsmall).mp hlt
        exact ⟨by rw [hkey, ← howner], howner.symm, hge2, hlt2⟩
      · rintro ⟨hk1, hown, hge, hlt⟩
        refine ⟨⟨?_, ?_⟩, ?_⟩
        · rw [hk1, List.isPrefixOf_iff_prefix]
          exact ⟨kv.2.ID, by simp [key]⟩
        · rw [heF, hrt]
          cases hb : lexLt (mkID (idNum kv.2.ID)) (mkID F) with
          | false => rfl
          | true =>
            have := (mkID_lt_iff _ _ hnlt hFsmall).mp hb
            omega
        · rw [heL, hrt]
          exact (mkID_lt_iff _ _ hnlt hLsmall).mpr hlt
    have hmem : ∀ c, (c ∈ sortByID ((m.filter P).map (·.2)) ↔
        ∃ kv, kv ∈ m ∧ P kv = true ∧ kv.2 = c) := by
      intro c
      rw [(sortByID_perm _).mem_iff, List.mem_map]
      constructor
      · rintro ⟨kv, hkvf, hkv2⟩
        obtain ⟨hkvm, hPkv⟩ := List.mem_filter.mp hkvf
        exact ⟨kv, hkvm, hPkv, hkv2⟩
      · rintro ⟨kv, hkvm, hPkv, hkv2⟩
        exact ⟨kv, List.mem_filter.mpr ⟨hkvm, hPkv⟩, hkv2⟩
    have hndf : ((m.filter P).map (fun kv => kv.2.ID)).Nodup :=
      List.Sublist.nodup (List.Sublist.map _ (List.filter_sublist m)) hnd
    have hperm := sortByID_perm ((m.filter P).map (·.2))
    have hids : ((sortByID ((m.filter P).map (·.2))).map (fun c => c.ID)).Nodup := by
      apply (List.Perm.nodup_iff (List.Perm.map _ hperm)).mpr
      rw [List.map_map]
      exact hndf
    have hpw : (sortByID ((m.filter P).map (·.2))).Pairwise
        (fun a b => lexLt a.ID b.ID = true) := by
      have h1 := pairwise_sortByID ((m.filter P).map (·.2))
      have h2 : (sortByID ((m.filter P).map (·.2))).Pairwise (fun a b => a.ID ≠ b.ID) :=
        List.pairwise_map.mp hids
      refine (h1.and h2).imp ?_
      rintro a b ⟨hle, hne⟩
      rcases lexLt_false_cases b.ID a.ID hle with heq | hlt2
      · exact absurd heq.symm hne
      · exact hlt2
    have hlen : (sortByID ((m.filter P).map (·.2))).length ≤ limit.toNat := by
      rw [hperm.length_eq, List.length_map]
      set rl := (m.filter P).map (fun kv => idNum kv.2.ID) with hrldef
      have hlen2 : rl.length = (m.filter P).length := List.length_map _ _
      have hrlnd : rl.Nodup := by
        have e : rl = ((m.filter P).map (fun kv => kv.2.ID)).map idNum := by
          rw [List.map_map]
          rfl
        rw [e]
        apply List.Nodup.map_on ?_ hndf
        intro x hx y hy hxy
        obtain ⟨kx, hkxf, hkx⟩ := List.mem_map.mp hx
        obtain ⟨ky, hkyf, hky⟩ := List.mem_map.mp hy
        obtain ⟨_, _, _, _, hrtx⟩ := hm kx (List.mem_filter.mp hkxf).1
        obtain ⟨_, _, _, _, hrty⟩ := hm ky (List.mem_filter.mp hkyf).1
        rw [← hkx, ← hky]
        rw [← hkx, ← hky] at hxy
        rw [hrtx, hrty, hxy]
      have hrlmem : ∀ r ∈ rl, r ∈ Finset.Ico F L := by
        intro r hr
        obtain ⟨kv, hkvf, hrid⟩ := List.mem_map.mp hr
        obtain ⟨hkvm, hPkv⟩ := List.mem_filter.mp hkvf
        obtain ⟨_, _, hge, hlt⟩ := (hPchar kv hkvm).mp hPkv
        rw [← hrid]
        exact Finset.mem_Ico.mpr ⟨hge, hlt⟩
      have hcard : rl.length ≤ (Finset.Ico F L).card := by
        rw [← List.toFinset_card_of_nodup hrlnd]
        apply Finset.card_le_card
        intro r hrf
        exact hrlmem r (List.mem_toFinset.mp hrf)
      rw [Nat.card_Ico] at hcard
      omega
    have hmain : ∀ c, (c ∈ sortByID ((m.filter P).map (·.2)) ↔
        (0 ≤ offset ∧ 1 ≤ limit ∧ (key o c.ID, c) ∈ m ∧ c.Owner = o ∧
          offset ≤ (idNum c.ID : Int) - 1 ∧ (idNum c.ID : Int) - 1 < offset + limit)) := by
      intro c
      rw [hmem c]
      constructor
      · rintro ⟨kv, hkvm, hPkv, hkv2⟩
        obtain ⟨hk1, hown, hge, hlt⟩ := (hPchar kv hkvm).mp hPkv
        subst hkv2
        refine ⟨hoff, hlim, ?_, hown, by omega, by omega⟩
        rw [← hk1]
        exact hkvm
      · rintro ⟨_, _, hmem2, hown, hge, hlt⟩
        refine ⟨(key o c.ID, c), hmem2, ?_, rfl⟩
        exact (hPchar (key o c.ID, c) hmem2).mpr
          ⟨rfl, hown, show F ≤ idNum c.ID by omega, show idNum c.ID < L by omega⟩
    exact ⟨fun hg => absurd hg hguard, hlen, hpw, hmain⟩

theorem c3_witness :
    (∀ kv ∈ exSt2.channels, kv.1 = key kv.2.Owner kv.2.ID ∧ ('-' : Char) ∉ kv.2.Owner) ∧
    (('-' : Char) ∉ (['a'] : Str)) ∧
    ((∀ c ∈ chanAll ['a'] 0 10 exSt2.channels, c.Owner = ['a']) ∧
      (∀ id c, chanOne ['a'] id exSt2.channels = .ok c → c.Owner = ['a'])) :=
  ⟨by decide, by decide,
    c3_owner_isolation ['a'] 0 10 exSt2.channels (by decide) (by decide)⟩

theorem c4_witness :
    (∀ kv ∈ exBigMap, kv.1 = key kv.2.Owner kv.2.ID ∧ ('-' : Char) ∉ kv.2.Owner ∧
      1 ≤ idNum kv.2.ID ∧ idNum kv.2.ID < 10 ^ 12 ∧ kv.2.ID = mkID (idNum kv.2.ID)) ∧
    (exBigMap.map (fun kv => kv.2.ID)).Nodup ∧
    (('-' : Char) ∉ (['a'] : Str)) ∧
    ((0 : Int) + 10 + 1 < 10 ^ 12) ∧
    (((0 : Int) < 0 ∨ (10 : Int) ≤ 0) → chanAll ['a'] 0 10 exBigMap = []) ∧
    (chanAll ['a'] 0 10 exBigMap).length ≤ (10 : Int).toNat ∧
    (chanAll ['a'] 0 10 exBigMap).Pairwise (fun a b => lexLt a.ID b.ID = true) ∧
    (∀ c, c ∈ chanAll ['a'] 0 10 exBigMap ↔
      ((0 : Int) ≤ 0 ∧ (1 : Int) ≤ 10 ∧ (key ['a'] c.ID, c) ∈ exBigMap ∧ c.Owner = ['a'] ∧
        (0 : Int) ≤ (idNum c.ID : Int) - 1 ∧ (idNum c.ID : Int) - 1 < 0 + 10)) :=
  ⟨by decide, by decide, by decide, by decide,
    c4_all_window ['a'] 0 10 exBigMap (by decide) (by decide) (by decide) (by decide)⟩
